import Mathlib

/-!
Verification of the uiverse.js runtime (src/uiverse.js): a browser-side
utility-CSS generator.  Six managers scan the DOM for utility class names
(spacing `m-4`, z-index `z-2n`, opacity `opacity-7`, border-radius
`rounded-8`, font-size `fs-14`), synthesize CSS rules, and inject them as
adopted stylesheets; a ScreenSize tracker publishes breakpoint variables.

Shallow embedding conventions:
* A document is the list of its elements in query order; an element is its
  list of class tokens (tokens are assumed free of whitespace, as produced
  by classList).
* A CSSStyleSheet is modelled as the list of its rule texts.  The source
  builds one newline-separated string and calls `replaceSync`; we keep the
  individual rule texts as list entries, so `replaceSync` is replacement of
  the list and `insertRule` at the end is `++ [rule]`.
* `document.adoptedStyleSheets` is a list of sheets (so a list of rule
  lists).
* JS regex matching (`String.prototype.match`, unanchored, leftmost match,
  greedy quantifiers) is implemented directly over the character list.
* JS numbers are modelled exactly (Nat/Int).  `parseInt` on a digit capture
  and `toFixed(2)` on a quarter multiple are exact for payloads of at most
  15 digits (below 2^53); theorems about the numeric transforms carry that
  bound as a hypothesis.
-/

namespace Uiverse

/-- A document: the elements in `querySelectorAll` order, each given by its
class-token list. -/
abbrev Doc := List (List String)

/-- Join strings with single spaces.  Used both for an element's class
attribute (the token list joined back, as `[class*=...]` substring matching
sees it) and for `Object.entries(...).join(" ")` in ScreenSize. -/
def joinSpaces : List String → String
| [] => ""
| [s] => s
| s :: rest => s ++ " " ++ joinSpaces rest

/-- The class attribute text of an element. -/
def classAttr (e : List String) : String := joinSpaces e

/-- Boolean test: `pat` is a prefix of `text`. -/
def listHasPfx : List Char → List Char → Bool
| [], _ => true
| _ :: _, [] => false
| p :: ps, c :: cs => p == c && listHasPfx ps cs

/-- Boolean test: `pat` occurs as a contiguous substring of `text`. -/
def listHasSub (pat : List Char) : List Char → Bool
| [] => pat.isEmpty
| c :: cs => listHasPfx pat (c :: cs) || listHasSub pat cs

/-- `text` contains `pat` as a substring (the CSS `[class*="pat"]` test and
the JS `String.prototype.includes`). -/
def hasSub (text pat : String) : Bool := listHasSub pat.data text.data

/-- JS `String.prototype.startsWith`. -/
def strStarts (s pat : String) : Bool := listHasPfx pat.data s.data

/-- JS `parseInt(ds, 10)` on an all-digit capture (exact for at most 15
digits). -/
def natOfDigits (ds : List Char) : Nat :=
  ds.foldl (fun n c => n * 10 + (c.toNat - 48)) 0

/-- Does the text start with the optional-flag character `n`?  (The greedy
`(n)?` group of the spacing and z-index regexes.) -/
def nextIsN : List Char → Bool
| 'n' :: _ => true
| _ => false

/-- Drop the literal `lit` from the head of `cs`; `none` if `cs` does not
start with `lit`. -/
def dropLit : List Char → List Char → Option (List Char)
| [], cs => some cs
| _ :: _, [] => none
| l :: ls, c :: cs => if l = c then dropLit ls cs else none

/-- One attempt of the regex `lit(\d+)(n)?` anchored at the current
position: the digit run is greedy, then the optional `n` flag.  Returns the
digit capture and whether the `n` flag matched. -/
def numMatchAt (lit cs : List Char) : Option (List Char × Bool) :=
  match dropLit lit cs with
  | none => none
  | some rest =>
    let ds := rest.takeWhile Char.isDigit
    if ds = [] then none
    else some (ds, nextIsN (rest.drop ds.length))

/-- Leftmost unanchored match of `lit(\d+)(n)?`, as
`String.prototype.match` computes it: try every start position left to
right. -/
def numMatch (lit : List Char) : List Char → Option (List Char × Bool)
| [] => none
| c :: cs =>
  match numMatchAt lit (c :: cs) with
  | some r => some r
  | none => numMatch lit cs

/-- The `-(\d+)(n)?` tail of the spacing regex, anchored at the current
position. -/
def spaceTail : List Char → Option (List Char × Bool)
| '-' :: rest =>
  let ds := rest.takeWhile Char.isDigit
  if ds = [] then none else some (ds, nextIsN (rest.drop ds.length))
| _ => none

/-- The character class `[trblxy]` of the spacing regex. -/
def sideChars : List Char := ['t', 'r', 'b', 'l', 'x', 'y']

/-- One attempt of `([mp][trblxy]?)-(\d+)(n)?` anchored at the current
position.  The optional `[trblxy]?` is greedy: the engine first tries to
consume a side character and backtracks to the empty alternative if the
tail fails.  Returns (styleType capture, digit capture, n flag). -/
def spaceMatchAt : List Char → Option (List Char × List Char × Bool)
| [] => none
| c :: rest =>
  if c = 'm' ∨ c = 'p' then
    match rest with
    | [] => none
    | d :: rest2 =>
      if d ∈ sideChars then
        match spaceTail rest2 with
        | some (ds, n) => some ([c, d], ds, n)
        | none =>
          match spaceTail rest with
          | some (ds, n) => some ([c], ds, n)
          | none => none
      else
        match spaceTail rest with
        | some (ds, n) => some ([c], ds, n)
        | none => none
  else none

/-- Leftmost unanchored match of the spacing regex
`([mp][trblxy]?)-(\d+)(n)?`. -/
def spaceMatch : List Char → Option (List Char × List Char × Bool)
| [] => none
| c :: cs =>
  match spaceMatchAt (c :: cs) with
  | some r => some r
  | none => spaceMatch cs

/-- Render `m` as two digits with a leading zero (the fraction part of
`toFixed(2)`). -/
def twoDig (m : Nat) : String := (if m < 10 then "0" else "") ++ toString m

/-- `(q * 0.25 * multiplier).toFixed(2)` for a natural `q` and sign flag:
exact, because quarters have an exact two-decimal expansion, and JS renders
the `-0` produced by `0 * -1` without a sign. -/
def fixed2OfQuarters (q : Nat) (neg : Bool) : String :=
  (if neg = true ∧ q ≠ 0 then "-" else "")
    ++ toString (25 * q / 100) ++ "." ++ twoDig (25 * q % 100)

/-- The record returned by `SpaceManager.calculateSpaceValue`: the captured
style-type prefix and the already-rendered `toFixed(2)` value. -/
structure SpaceDetails where
  styleType : String
  styleValue : String
deriving DecidableEq

/-- `SpaceManager.calculateSpaceValue`: match
`([mp][trblxy]?)-(\d+)(n)?`, multiply the digits by 0.25, negate on the
`n` flag, render with `toFixed(2)`. -/
def calculateSpaceValue (input : String) : Option SpaceDetails :=
  match spaceMatch input.data with
  | none => none
  | some (st, ds, neg) => some ⟨String.mk st, fixed2OfQuarters (natOfDigits ds) neg⟩

/-- `SpaceManager.cssPropertyMap` (a JS object literal; lookup of a key not
present yields undefined, here `none` — unreachable for regex captures). -/
def cssPropertyMap : String → Option String
| "m" => some "margin"
| "mt" => some "margin-top"
| "mb" => some "margin-bottom"
| "ml" => some "margin-left"
| "mr" => some "margin-right"
| "mx" => some "margin-horizontal"
| "my" => some "margin-vertical"
| "p" => some "padding"
| "pt" => some "padding-top"
| "pb" => some "padding-bottom"
| "pl" => some "padding-left"
| "pr" => some "padding-right"
| "px" => some "padding-horizontal"
| "py" => some "padding-vertical"
| _ => none

/-- The rule text `SpaceManager.applyStyles` emits for one class name
(`none` when the regex does not match or the prefix is not in the map; in
the source the class is marked processed exactly when this is `some`).
The `-horizontal` / `-vertical` pseudo-properties are expanded with
`.replace` into the left/right resp. top/bottom pair; the source guards
these branches with disjunctions on the two pseudo-values and applies
`.replace` to whichever matched, which we write out per value. -/
def spaceRuleFor (className : String) : Option String :=
  match calculateSpaceValue className with
  | none => none
  | some d =>
    match cssPropertyMap d.styleType with
    | none => none
    | some prop =>
      if prop = "margin-horizontal" then
        some ("." ++ className ++ " \x7b margin-left: " ++ d.styleValue
          ++ "rem; margin-right: " ++ d.styleValue ++ "rem; \x7d")
      else if prop = "padding-horizontal" then
        some ("." ++ className ++ " \x7b padding-left: " ++ d.styleValue
          ++ "rem; padding-right: " ++ d.styleValue ++ "rem; \x7d")
      else if prop = "margin-vertical" then
        some ("." ++ className ++ " \x7b margin-top: " ++ d.styleValue
          ++ "rem; margin-bottom: " ++ d.styleValue ++ "rem; \x7d")
      else if prop = "padding-vertical" then
        some ("." ++ className ++ " \x7b padding-top: " ++ d.styleValue
          ++ "rem; padding-bottom: " ++ d.styleValue ++ "rem; \x7d")
      else
        some ("." ++ className ++ " \x7b " ++ prop ++ ": " ++ d.styleValue ++ "rem; \x7d")

/-- `ZIndexManager.calculateZIndex`: match `z-(\d+)(n)?`, parse the digits,
negate on the `n` flag. -/
def calculateZIndex (className : String) : Option Int :=
  match numMatch ['z', '-'] className.data with
  | none => none
  | some (ds, neg) => some ((if neg then -1 else 1) * (natOfDigits ds : Int))

/-- The rule text `ZIndexManager.applyZIndexStyles` emits for one class. -/
def zRuleFor (className : String) : Option String :=
  (calculateZIndex className).map
    (fun z => "." ++ className ++ " \x7b z-index: " ++ toString z ++ "; \x7d")

/-- `BorderRadiusManager.calculateBorderRadius`: match `rounded-(\d+)`. -/
def calculateBorderRadius (className : String) : Option Nat :=
  match numMatch "rounded-".data className.data with
  | none => none
  | some (ds, _) => some (natOfDigits ds)

/-- The rule text `BorderRadiusManager.applyBorderRadiusStyles` emits. -/
def radiusRuleFor (className : String) : Option String :=
  (calculateBorderRadius className).map
    (fun r => "." ++ className ++ " \x7b border-radius: " ++ toString r ++ "px; \x7d")

/-- `FontSizeManager.calculateFontSize`: match `fs-(\d+)`. -/
def calculateFontSize (className : String) : Option Nat :=
  match numMatch "fs-".data className.data with
  | none => none
  | some (ds, _) => some (natOfDigits ds)

/-- The rule text `FontSizeManager.applyFontSizeStyles` emits. -/
def fontRuleFor (className : String) : Option String :=
  (calculateFontSize className).map
    (fun s => "." ++ className ++ " \x7b font-size: " ++ toString s ++ "px; \x7d")

/-- How JS prints the number `lvl / 10` for a natural `lvl` (shortest exact
decimal: `1` for level 10, `0.3` for level 3). -/
def renderTenths (lvl : Nat) : String :=
  if lvl % 10 = 0 then toString (lvl / 10)
  else toString (lvl / 10) ++ "." ++ toString (lvl % 10)

/-- `OpacityManager.calculateOpacity`: match `opacity-(\d+)`; the value
`lvl / 10` is valid only for `lvl` in `[1, 10]`, otherwise null.  The JS
returns the quotient `lvl / 10`; we carry the exact level and render
`lvl / 10` with `renderTenths` at the use site. -/
def calculateOpacity (className : String) : Option Nat :=
  match numMatch "opacity-".data className.data with
  | none => none
  | some (ds, _) =>
    let lvl := natOfDigits ds
    if 1 ≤ lvl ∧ lvl ≤ 10 then some lvl else none

/-- The shared scan loop of the utility managers: walk the class names in
document order; skip names already in the processed set; otherwise compute
the rule text; on success append it to the accumulated batch and add the
name to the processed set.  Returns (batch rules, processed set). -/
def scanClasses (ruleFor : String → Option String) :
    List String → List String → List String → List String × List String
| [], rules, processed => (rules, processed)
| cn :: rest, rules, processed =>
  if cn ∈ processed then scanClasses ruleFor rest rules processed
  else
    match ruleFor cn with
    | some r => scanClasses ruleFor rest (rules ++ [r]) (cn :: processed)
    | none => scanClasses ruleFor rest rules processed

/-- The class names visited by a scan: `querySelectorAll` keeps the
elements whose class attribute contains the marker substring, and the scan
walks each kept element's classList in order. -/
def classStream (marker : String) (doc : Doc) : List String :=
  (doc.filter (fun e => hasSub (classAttr e) marker)).flatten

/-- One scan step of the `replaceSync` managers (ZIndexManager,
BorderRadiusManager and FontSizeManager share this loop verbatim): run the
scan, and if the batch is non-empty replace the whole stylesheet content
with the batch (`styleSheet.replaceSync(styles)` guarded by
`if (styles)`).  Returns (processed set, stylesheet). -/
def replaceScanStep (ruleFor : String → Option String) (marker : String)
    (processed sheet : List String) (doc : Doc) : List String × List String :=
  let res := scanClasses ruleFor (classStream marker doc) [] processed
  (res.2, if res.1 = [] then sheet else res.1)

/-- `ZIndexManager` mutable state: `processedClasses` and the manager's own
adopted stylesheet. -/
structure ZIndexState where
  processedClasses : List String
  styleSheet : List String
deriving DecidableEq

/-- `ZIndexManager.applyZIndexStyles` on the whole document. -/
def applyZIndexStyles (st : ZIndexState) (doc : Doc) : ZIndexState :=
  let r := replaceScanStep zRuleFor "z-" st.processedClasses st.styleSheet doc
  ⟨r.1, r.2⟩

/-- `BorderRadiusManager` mutable state. -/
structure BorderRadiusState where
  processedClasses : List String
  styleSheet : List String
deriving DecidableEq

/-- `BorderRadiusManager.applyBorderRadiusStyles`. -/
def applyBorderRadiusStyles (st : BorderRadiusState) (doc : Doc) : BorderRadiusState :=
  let r := replaceScanStep radiusRuleFor "rounded-" st.processedClasses st.styleSheet doc
  ⟨r.1, r.2⟩

/-- `FontSizeManager` mutable state. -/
structure FontSizeState where
  processedClasses : List String
  styleSheet : List String
deriving DecidableEq

/-- `FontSizeManager.applyFontSizeStyles`. -/
def applyFontSizeStyles (st : FontSizeState) (doc : Doc) : FontSizeState :=
  let r := replaceScanStep fontRuleFor "fs-" st.processedClasses st.styleSheet doc
  ⟨r.1, r.2⟩

/-- `SpaceManager` mutable state: `processedClassNames` plus the batch
sheets this manager has appended to `document.adoptedStyleSheets` (one new
sheet per non-empty scan, in order). -/
structure SpaceManagerState where
  processedClassNames : List String
  adoptedBatches : List (List String)
deriving DecidableEq

/-- `SpaceManager.applyStyles`: scan all elements matching
`[class*="-"]`; if the batch is non-empty, build a NEW stylesheet from it
and append that sheet to the document's adopted set. -/
def applyStyles (st : SpaceManagerState) (doc : Doc) : SpaceManagerState :=
  let res := scanClasses spaceRuleFor (classStream "-" doc) [] st.processedClassNames
  ⟨res.2, if res.1 = [] then st.adoptedBatches else st.adoptedBatches ++ [res.1]⟩

/-- `OpacityManager` mutable state. -/
structure OpacityState where
  processedClasses : List String
  styleSheet : List String
deriving DecidableEq

/-- `OpacityManager.addOpacityStyle`: for an unprocessed class starting
with `opacity-`, compute the opacity; on a valid value insert the rule at
the end of the sheet (`insertRule` at `cssRules.length`) and mark the class
processed; an out-of-range value leaves the state untouched. -/
def addOpacityStyle (st : OpacityState) (className : String) : OpacityState :=
  if className ∉ st.processedClasses ∧ strStarts className "opacity-" = true then
    match calculateOpacity className with
    | some lvl =>
      ⟨className :: st.processedClasses,
       st.styleSheet ++ ["." ++ className ++ " \x7b opacity: " ++ renderTenths lvl ++ "; \x7d"]⟩
    | none => st
  else st

/-- `OpacityManager.applyInitialOpacityStyles`: walk every class of every
element matching `[class*="opacity-"]` through `addOpacityStyle`. -/
def applyInitialOpacityStyles (st : OpacityState) (doc : Doc) : OpacityState :=
  (classStream "opacity-" doc).foldl addOpacityStyle st

/-- `ScreenSize.getDeviceTypeAndContainer`: map `window.innerWidth` to the
(deviceType, container) pair through the fixed threshold chain. -/
def getDeviceTypeAndContainer (width : Nat) : String × String :=
  if width < 576 then ("xs", "100%")
  else if width < 768 then ("sm", "540px")
  else if width < 992 then ("md", "720px")
  else if width < 1200 then ("lg", "960px")
  else if width < 1400 then ("xl", "1140px")
  else ("xxl", "1320px")

/-- `ScreenSize.setCssVariables`: build one new sheet holding a single
`:root` rule from the variable entries, and ASSIGN
`document.adoptedStyleSheets = [styleSheet]` — the previously adopted
sheets are passed in only to be discarded by that assignment. -/
def setCssVariables (_priorAdopted : List (List String))
    (vars : List (String × String)) : List (List String) :=
  [[":root \x7b "
      ++ joinSpaces (vars.map (fun kv => kv.1 ++ ": " ++ kv.2 ++ ";"))
      ++ " \x7d"]]

/-- `ScreenSize.updateDeviceType`: recompute the breakpoint for the current
width and publish both values through `setCssVariables`.  Called once from
the constructor and again by each debounced resize callback. -/
def updateDeviceType (width : Nat) (priorAdopted : List (List String)) :
    List (List String) :=
  let dc := getDeviceTypeAndContainer width
  setCssVariables priorAdopted [("--device-type", dc.1), ("--container", dc.2)]

/-- The single `:root` rule `updateDeviceType` publishes for a width. -/
def rootRuleOf (width : Nat) : String :=
  ":root \x7b --device-type: " ++ (getDeviceTypeAndContainer width).1
    ++ "; --container: " ++ (getDeviceTypeAndContainer width).2 ++ "; \x7d"

/-- Discrete-event semantics of `ScreenSize.debounce(func, delay)` wired to
the resize listener.  The input is the time-ordered list of resize events,
each with its timestamp and the viewport width at that moment.  Every call
clears the pending timeout and arms a new one `delay` ms out, so an event
followed within `delay` ms by another is cancelled, and an event whose
successor arrives at or after `t + delay` lets its timeout fire at
`t + delay`.  The output is the list of debounced recomputations (fire
time, width read when the callback runs). -/
def debounceFires (delay : Nat) : List (Nat × Nat) → List (Nat × Nat)
| [] => []
| [(t, w)] => [(t + delay, w)]
| (t, w) :: (u, v) :: rest =>
  if u < t + delay then debounceFires delay ((u, v) :: rest)
  else (t + delay, w) :: debounceFires delay ((u, v) :: rest)

/-- The last event of a non-empty event list. -/
def lastPair (e : Nat × Nat) : List (Nat × Nat) → Nat × Nat
| [] => e
| x :: xs => lastPair x xs

/-- All consecutive gaps of the event list are below `delay` (a burst). -/
def gapsUnder (delay : Nat) : List (Nat × Nat) → Bool
| a :: b :: rest => decide (b.1 < a.1 + delay) && gapsUnder delay (b :: rest)
| _ => true

/-- The whole program state after `new CSSManager()`: the sheet list the
ScreenSize tracker published, plus one sub-state per utility manager. -/
structure CSSManagerState where
  screenSheets : List (List String)
  spaceManager : SpaceManagerState
  zIndexManager : ZIndexState
  opacityManager : OpacityState
  borderRadiusManager : BorderRadiusState
  fontSizeManager : FontSizeState
deriving DecidableEq

/-- `document.adoptedStyleSheets` after construction, in adoption order:
the ScreenSize assignment replaced the set with its single sheet, then the
z-index, opacity, border-radius and font-size constructors each appended
their (possibly still empty) sheet, and every non-empty spacing scan
appends one batch sheet at the end. -/
def adoptedSheets (st : CSSManagerState) : List (List String) :=
  st.screenSheets
    ++ [st.zIndexManager.styleSheet, st.opacityManager.styleSheet,
        st.borderRadiusManager.styleSheet, st.fontSizeManager.styleSheet]
    ++ st.spaceManager.adoptedBatches

/-- All rules of all adopted sheets, flattened. -/
def adoptedRules (st : CSSManagerState) : List String := (adoptedSheets st).flatten

/-- `new CSSManager()` evaluated against the load-time document:, in
constructor order.  ScreenSize publishes the breakpoint variables;
SpaceManager only attaches its mutation observer (NO initial scan);
ZIndexManager, OpacityManager and BorderRadiusManager run their initial
full-document scan from their constructors; FontSizeManager only attaches
its observer (NO initial scan).  The trailing `observeDomChanges` calls
attach duplicate observers and scan nothing. -/
def cssManagerInit (width : Nat) (doc : Doc) : CSSManagerState :=
  ⟨updateDeviceType width [],
   ⟨[], []⟩,
   applyZIndexStyles ⟨[], []⟩ doc,
   applyInitialOpacityStyles ⟨[], []⟩ doc,
   applyBorderRadiusStyles ⟨[], []⟩ doc,
   ⟨[], []⟩⟩

/-- Delivery of one qualifying DOM mutation batch to the four observers
that re-scan the whole document (the SpaceManager throttle passes on a
first call because `lastExecTime` starts at 0).  The OpacityManager
observer reacts only to class-attribute mutation records, inspecting just
the mutated element's classes, so it is not part of this step. -/
def mutationRescan (st : CSSManagerState) (doc : Doc) : CSSManagerState :=
  { st with
    spaceManager := applyStyles st.spaceManager doc
    zIndexManager := applyZIndexStyles st.zIndexManager doc
    borderRadiusManager := applyBorderRadiusStyles st.borderRadiusManager doc
    fontSizeManager := applyFontSizeStyles st.fontSizeManager doc }

/-! ### Lemmas about the shared scan loop -/

/-- A name already in the processed set stays in it through a scan. -/
theorem scanClasses_processed_mono (ruleFor : String → Option String)
    (cns : List String) (cn : String) :
    ∀ rules processed, cn ∈ processed →
      cn ∈ (scanClasses ruleFor cns rules processed).2 := by
  induction cns with
  | nil => intro rules processed h; simpa [scanClasses] using h
  | cons c rest ih =>
    intro rules processed h
    by_cases hc : c ∈ processed
    · simpa [scanClasses, hc] using ih _ _ h
    · cases hr : ruleFor c with
      | some r =>
        simp only [scanClasses, if_neg hc, hr]
        exact ih _ _ (List.mem_cons_of_mem _ h)
      | none =>
        simp only [scanClasses, if_neg hc, hr]
        exact ih _ _ h

/-- After a scan, every visited name either has no rule or is in the
resulting processed set. -/
theorem scanClasses_covers (ruleFor : String → Option String)
    (cns : List String) (cn : String) :
    ∀ rules processed, cn ∈ cns →
      ruleFor cn = none ∨ cn ∈ (scanClasses ruleFor cns rules processed).2 := by
  induction cns with
  | nil => intro _ _ h; cases h
  | cons c rest ih =>
    intro rules processed h
    rcases List.mem_cons.mp h with rfl | htail
    · by_cases hc : cn ∈ processed
      · simp only [scanClasses, if_pos hc]
        exact Or.inr (scanClasses_processed_mono _ _ _ _ _ hc)
      · cases hr : ruleFor cn with
        | some r =>
          simp only [scanClasses, if_neg hc, hr]
          exact Or.inr (scanClasses_processed_mono _ _ _ _ _ (List.mem_cons_self _ _))
        | none => exact Or.inl rfl
    · by_cases hc : c ∈ processed
      · simpa [scanClasses, hc] using ih _ _ htail
      · cases hr : ruleFor c with
        | some r => simp only [scanClasses, if_neg hc, hr]; exact ih _ _ htail
        | none => simp only [scanClasses, if_neg hc, hr]; exact ih _ _ htail

/-- A scan over names that are all either rule-less or already processed
changes nothing. -/
theorem scanClasses_stable (ruleFor : String → Option String)
    (cns : List String) :
    ∀ rules processed,
      (∀ cn ∈ cns, ruleFor cn = none ∨ cn ∈ processed) →
      scanClasses ruleFor cns rules processed = (rules, processed) := by
  induction cns with
  | nil => intro _ _ _; simp [scanClasses]
  | cons c rest ih =>
    intro rules processed h
    have hrest : ∀ cn ∈ rest, ruleFor cn = none ∨ cn ∈ processed :=
      fun cn hcn => h cn (List.mem_cons_of_mem _ hcn)
    rcases h c (List.mem_cons_self _ _) with hnone | hmem
    · by_cases hc : c ∈ processed
      · simp only [scanClasses, if_pos hc]; exact ih _ _ hrest
      · simp only [scanClasses, if_neg hc, hnone]; exact ih _ _ hrest
    · simp only [scanClasses, if_pos hmem]; exact ih _ _ hrest

/-- Running a replace-style scan step twice in a row from the same document
is the same as running it once. -/
theorem replaceScanStep_idem (ruleFor : String → Option String) (marker : String)
    (processed sheet : List String) (doc : Doc) :
    replaceScanStep ruleFor marker
      (replaceScanStep ruleFor marker processed sheet doc).1
      (replaceScanStep ruleFor marker processed sheet doc).2 doc
      = replaceScanStep ruleFor marker processed sheet doc := by
  have hstab :
      scanClasses ruleFor (classStream marker doc) []
        ((scanClasses ruleFor (classStream marker doc) [] processed).2)
        = ([], (scanClasses ruleFor (classStream marker doc) [] processed).2) := by
    refine scanClasses_stable _ _ _ _ (fun cn hcn => ?_)
    exact scanClasses_covers ruleFor (classStream marker doc) cn [] processed hcn
  simp [replaceScanStep, hstab]

/-- `addOpacityStyle` never removes a processed name. -/
theorem addOpacityStyle_processed_mono (st : OpacityState) (className cn : String)
    (h : cn ∈ st.processedClasses) :
    cn ∈ (addOpacityStyle st className).processedClasses := by
  unfold addOpacityStyle
  split
  · cases hr : calculateOpacity className with
    | some lvl => simp only [hr]; exact List.mem_cons_of_mem _ h
    | none => simpa [hr] using h
  · exact h

/-- `addOpacityStyle` never removes a committed rule. -/
theorem addOpacityStyle_sheet_mono (st : OpacityState) (className r : String)
    (h : r ∈ st.styleSheet) : r ∈ (addOpacityStyle st className).styleSheet := by
  unfold addOpacityStyle
  split
  · cases hr : calculateOpacity className with
    | some lvl => simp only [hr]; exact List.mem_append_left _ h
    | none => simpa [hr] using h
  · exact h

/-- The opacity fold never removes a processed name. -/
theorem opacityFold_processed_mono (cns : List String) :
    ∀ (st : OpacityState) (cn : String), cn ∈ st.processedClasses →
      cn ∈ (cns.foldl addOpacityStyle st).processedClasses := by
  induction cns with
  | nil => intro st cn h; simpa using h
  | cons c rest ih =>
    intro st cn h
    exact ih _ _ (addOpacityStyle_processed_mono st c cn h)

/-- After the opacity fold, every visited name is either rejected by the
guards or in the resulting processed set. -/
theorem opacityFold_covers (cns : List String) :
    ∀ (st : OpacityState) (cn : String), cn ∈ cns →
      strStarts cn "opacity-" = false ∨ calculateOpacity cn = none ∨
        cn ∈ (cns.foldl addOpacityStyle st).processedClasses := by
  induction cns with
  | nil => intro _ _ h; cases h
  | cons c rest ih =>
    intro st cn h
    rcases List.mem_cons.mp h with rfl | htail
    · by_cases hs : strStarts cn "opacity-" = true
      · by_cases hp : cn ∈ st.processedClasses
        · exact Or.inr (Or.inr (opacityFold_processed_mono rest _ _
            (addOpacityStyle_processed_mono st cn cn hp)))
        · cases hr : calculateOpacity cn with
          | some lvl =>
            refine Or.inr (Or.inr (opacityFold_processed_mono rest _ _ ?_))
            simp [addOpacityStyle, hp, hs, hr]
          | none => exact Or.inr (Or.inl rfl)
      · exact Or.inl (by simpa using hs)
    · exact ih _ _ htail

/-- An opacity fold over names that are all guarded away or already
processed changes nothing. -/
theorem opacityFold_stable (cns : List String) :
    ∀ (st : OpacityState),
      (∀ cn ∈ cns, strStarts cn "opacity-" = false ∨ calculateOpacity cn = none ∨
        cn ∈ st.processedClasses) →
      cns.foldl addOpacityStyle st = st := by
  induction cns with
  | nil => intro _ _; rfl
  | cons c rest ih =>
    intro st h
    have hc : addOpacityStyle st c = st := by
      rcases h c (List.mem_cons_self _ _) with hs | hr | hp
      · simp [addOpacityStyle, hs]
      · unfold addOpacityStyle
        split
        · simp [hr]
        · rfl
      · simp [addOpacityStyle, hp]
    have : (c :: rest).foldl addOpacityStyle st = rest.foldl addOpacityStyle st := by
      simp [List.foldl, hc]
    rw [this]
    exact ih st (fun cn hcn => h cn (List.mem_cons_of_mem _ hcn))

/-! ### Per-manager idempotence -/

/-- Scanning the same document twice with ZIndexManager is one scan. -/
theorem applyZIndexStyles_idem (st : ZIndexState) (doc : Doc) :
    applyZIndexStyles (applyZIndexStyles st doc) doc = applyZIndexStyles st doc := by
  simpa [applyZIndexStyles] using
    congrArg (fun p : List String × List String => (ZIndexState.mk p.1 p.2))
      (replaceScanStep_idem zRuleFor "z-" st.processedClasses st.styleSheet doc)

/-- Scanning the same document twice with BorderRadiusManager is one scan. -/
theorem applyBorderRadiusStyles_idem (st : BorderRadiusState) (doc : Doc) :
    applyBorderRadiusStyles (applyBorderRadiusStyles st doc) doc
      = applyBorderRadiusStyles st doc := by
  simpa [applyBorderRadiusStyles] using
    congrArg (fun p : List String × List String => (BorderRadiusState.mk p.1 p.2))
      (replaceScanStep_idem radiusRuleFor "rounded-" st.processedClasses st.styleSheet doc)

/-- Scanning the same document twice with FontSizeManager is one scan. -/
theorem applyFontSizeStyles_idem (st : FontSizeState) (doc : Doc) :
    applyFontSizeStyles (applyFontSizeStyles st doc) doc = applyFontSizeStyles st doc := by
  simpa [applyFontSizeStyles] using
    congrArg (fun p : List String × List String => (FontSizeState.mk p.1 p.2))
      (replaceScanStep_idem fontRuleFor "fs-" st.processedClasses st.styleSheet doc)

/-- Scanning the same document twice with SpaceManager is one scan: the
second batch is empty, so no new sheet is adopted. -/
theorem applyStyles_idem (st : SpaceManagerState) (doc : Doc) :
    applyStyles (applyStyles st doc) doc = applyStyles st doc := by
  have hstab :
      scanClasses spaceRuleFor (classStream "-" doc) []
        ((scanClasses spaceRuleFor (classStream "-" doc) [] st.processedClassNames).2)
        = ([], (scanClasses spaceRuleFor (classStream "-" doc) []
            st.processedClassNames).2) := by
    refine scanClasses_stable _ _ _ _ (fun cn hcn => ?_)
    exact scanClasses_covers spaceRuleFor (classStream "-" doc) cn [] st.processedClassNames hcn
  simp [applyStyles, hstab]

/-- Scanning the same document twice with the opacity manager is one scan. -/
theorem applyInitialOpacityStyles_idem (st : OpacityState) (doc : Doc) :
    applyInitialOpacityStyles (applyInitialOpacityStyles st doc) doc
      = applyInitialOpacityStyles st doc := by
  unfold applyInitialOpacityStyles
  refine opacityFold_stable _ _ (fun cn hcn => ?_)
  rcases opacityFold_covers (classStream "opacity-" doc) st cn hcn with hs | hr | hp
  · exact Or.inl hs
  · exact Or.inr (Or.inl hr)
  · exact Or.inr (Or.inr hp)

/-! ### Claim theorems -/

/-- Claim C3: for every viewport width, the breakpoint computation returns
exactly the pair given by the threshold table with exclusive upper bounds
(width < 576 gives xs/100%, width < 768 gives sm/540px, width < 992 gives
md/720px, width < 1200 gives lg/960px, width < 1400 gives xl/1140px, else
xxl/1320px); in particular 575 is xs, 576 is sm, 767 is sm, 768 is md. -/
theorem breakpoint_thresholds_exact (width : Nat) :
    (width < 576 → getDeviceTypeAndContainer width = ("xs", "100%")) ∧
    (576 ≤ width → width < 768 → getDeviceTypeAndContainer width = ("sm", "540px")) ∧
    (768 ≤ width → width < 992 → getDeviceTypeAndContainer width = ("md", "720px")) ∧
    (992 ≤ width → width < 1200 → getDeviceTypeAndContainer width = ("lg", "960px")) ∧
    (1200 ≤ width → width < 1400 → getDeviceTypeAndContainer width = ("xl", "1140px")) ∧
    (1400 ≤ width → getDeviceTypeAndContainer width = ("xxl", "1320px")) ∧
    getDeviceTypeAndContainer 575 = ("xs", "100%") ∧
    getDeviceTypeAndContainer 576 = ("sm", "540px") ∧
    getDeviceTypeAndContainer 767 = ("sm", "540px") ∧
    getDeviceTypeAndContainer 768 = ("md", "720px") := by
  refine ⟨?_, ?_, ?_, ?_, ?_, ?_, by decide, by decide, by decide, by decide⟩ <;>
  · intros
    unfold getDeviceTypeAndContainer
    split_ifs <;> first | rfl | omega

/-- Witness for C3 at width 600: the sm row applies. -/
theorem breakpoint_thresholds_exact_witness :
    getDeviceTypeAndContainer 600 = ("sm", "540px") :=
  (breakpoint_thresholds_exact 600).2.1 (by decide) (by decide)

/-- Claim C8: every breakpoint recomputation (the constructor call and each
debounced resize callback both run `updateDeviceType`) publishes the two
custom properties by assigning a list containing exactly one new sheet with
a single `:root` rule, so every previously adopted sheet (other managers'
sheets included) is removed from the adopted set rather than appended to. -/
theorem resize_replaces_adopted_sheets (width : Nat) (prior : List (List String)) :
    updateDeviceType width prior = [[rootRuleOf width]] ∧
    strStarts (rootRuleOf width) ":root" = true ∧
    (∀ s ∈ prior, s = [rootRuleOf width] ∨ s ∉ updateDeviceType width prior) := by
  have hroot : updateDeviceType width prior = [[rootRuleOf width]] ∧
      strStarts (rootRuleOf width) ":root" = true := by
    unfold updateDeviceType setCssVariables rootRuleOf getDeviceTypeAndContainer
    split_ifs <;> exact ⟨by decide, by decide⟩
  refine ⟨hroot.1, hroot.2, fun s hs => ?_⟩
  by_cases heq : s = [rootRuleOf width]
  · exact Or.inl heq
  · refine Or.inr ?_
    rw [hroot.1]
    simp [heq]

/-- Witness for C8 at width 600 with one previously adopted sheet: the
prior sheet is gone from the published set. -/
theorem resize_replaces_adopted_sheets_witness :
    updateDeviceType 600 [[".a \x7b margin: 1rem; \x7d"]] = [[rootRuleOf 600]] ∧
    ([".a \x7b margin: 1rem; \x7d"] = [rootRuleOf 600] ∨
      [".a \x7b margin: 1rem; \x7d"] ∉ updateDeviceType 600 [[".a \x7b margin: 1rem; \x7d"]]) :=
  ⟨(resize_replaces_adopted_sheets 600 [[".a \x7b margin: 1rem; \x7d"]]).1,
   (resize_replaces_adopted_sheets 600 [[".a \x7b margin: 1rem; \x7d"]]).2.2
     [".a \x7b margin: 1rem; \x7d"] (by decide)⟩

/-- Spec-side rendering of the documented spacing value: `digits × 0.25`
rem with exactly two decimal places, negated on the flag — integer part
`q / 4`, two-digit fraction `25 · (q mod 4)`. -/
def quartersSpec (q : Nat) (neg : Bool) : String :=
  (if neg = true ∧ q ≠ 0 then "-" else "")
    ++ toString (q / 4) ++ "." ++ twoDig (q % 4 * 25)

/-- The source-side `toFixed(2)` rendering coincides with the documented
`digits × 0.25` two-decimal rendering. -/
theorem fixed2_eq_quartersSpec (q : Nat) (neg : Bool) :
    fixed2OfQuarters q neg = quartersSpec q neg := by
  unfold fixed2OfQuarters quartersSpec
  have h1 : 25 * q / 100 = q / 4 := by omega
  have h2 : 25 * q % 100 = q % 4 * 25 := by omega
  rw [h1, h2]

/-- Claim C4: for every class name matching
`([mp][trblxy]?)-(\d+)(n)?`, the emitted declaration uses the CSS property
of the prefix table (`m` margin, `mt`/`mb`/`ml`/`mr` direct, `mx`
expanding to margin-left plus margin-right, `my` to margin-top plus
margin-bottom, mirrored for `p` padding), with value digits × 0.25 rem,
negated on the trailing `n`, rendered with exactly two decimals
(`quartersSpec`).  The digit bound keeps the JS double arithmetic exact. -/
theorem spacing_property_table (cn : String) (stT ds : List Char) (neg : Bool)
    (h : spaceMatch cn.data = some (stT, ds, neg)) (_hds : ds.length ≤ 15) :
    calculateSpaceValue cn = some ⟨String.mk stT, quartersSpec (natOfDigits ds) neg⟩ ∧
    (stT = ['m'] → spaceRuleFor cn = some ("." ++ cn ++ " \x7b " ++ "margin"
      ++ ": " ++ quartersSpec (natOfDigits ds) neg ++ "rem; \x7d")) ∧
    (stT = ['m', 't'] → spaceRuleFor cn = some ("." ++ cn ++ " \x7b " ++ "margin-top"
      ++ ": " ++ quartersSpec (natOfDigits ds) neg ++ "rem; \x7d")) ∧
    (stT = ['m', 'b'] → spaceRuleFor cn = some ("." ++ cn ++ " \x7b " ++ "margin-bottom"
      ++ ": " ++ quartersSpec (natOfDigits ds) neg ++ "rem; \x7d")) ∧
    (stT = ['m', 'l'] → spaceRuleFor cn = some ("." ++ cn ++ " \x7b " ++ "margin-left"
      ++ ": " ++ quartersSpec (natOfDigits ds) neg ++ "rem; \x7d")) ∧
    (stT = ['m', 'r'] → spaceRuleFor cn = some ("." ++ cn ++ " \x7b " ++ "margin-right"
      ++ ": " ++ quartersSpec (natOfDigits ds) neg ++ "rem; \x7d")) ∧
    (stT = ['m', 'x'] → spaceRuleFor cn = some ("." ++ cn ++ " \x7b margin-left: "
      ++ quartersSpec (natOfDigits ds) neg ++ "rem; margin-right: "
      ++ quartersSpec (natOfDigits ds) neg ++ "rem; \x7d")) ∧
    (stT = ['m', 'y'] → spaceRuleFor cn = some ("." ++ cn ++ " \x7b margin-top: "
      ++ quartersSpec (natOfDigits ds) neg ++ "rem; margin-bottom: "
      ++ quartersSpec (natOfDigits ds) neg ++ "rem; \x7d")) ∧
    (stT = ['p'] → spaceRuleFor cn = some ("." ++ cn ++ " \x7b " ++ "padding"
      ++ ": " ++ quartersSpec (natOfDigits ds) neg ++ "rem; \x7d")) ∧
    (stT = ['p', 't'] → spaceRuleFor cn = some ("." ++ cn ++ " \x7b " ++ "padding-top"
      ++ ": " ++ quartersSpec (natOfDigits ds) neg ++ "rem; \x7d")) ∧
    (stT = ['p', 'b'] → spaceRuleFor cn = some ("." ++ cn ++ " \x7b " ++ "padding-bottom"
      ++ ": " ++ quartersSpec (natOfDigits ds) neg ++ "rem; \x7d")) ∧
    (stT = ['p', 'l'] → spaceRuleFor cn = some ("." ++ cn ++ " \x7b " ++ "padding-left"
      ++ ": " ++ quartersSpec (natOfDigits ds) neg ++ "rem; \x7d")) ∧
    (stT = ['p', 'r'] → spaceRuleFor cn = some ("." ++ cn ++ " \x7b " ++ "padding-right"
      ++ ": " ++ quartersSpec (natOfDigits ds) neg ++ "rem; \x7d")) ∧
    (stT = ['p', 'x'] → spaceRuleFor cn = some ("." ++ cn ++ " \x7b padding-left: "
      ++ quartersSpec (natOfDigits ds) neg ++ "rem; padding-right: "
      ++ quartersSpec (natOfDigits ds) neg ++ "rem; \x7d")) ∧
    (stT = ['p', 'y'] → spaceRuleFor cn = some ("." ++ cn ++ " \x7b padding-top: "
      ++ quartersSpec (natOfDigits ds) neg ++ "rem; padding-bottom: "
      ++ quartersSpec (natOfDigits ds) neg ++ "rem; \x7d")) := by
  have hc : calculateSpaceValue cn
      = some ⟨String.mk stT, quartersSpec (natOfDigits ds) neg⟩ := by
    simp [calculateSpaceValue, h, fixed2_eq_quartersSpec]
  refine ⟨hc, ?_, ?_, ?_, ?_, ?_, ?_, ?_, ?_, ?_, ?_, ?_, ?_, ?_, ?_⟩ <;>
  · rintro rfl
    simp [spaceRuleFor, hc, cssPropertyMap]

/-- Witness for C4 on the class `mx-3n`: prefix `mx` expands to the
margin-left plus margin-right pair with value `-0.75rem`. -/
theorem spacing_property_table_witness :
    spaceRuleFor "mx-3n" = some (".mx-3n \x7b margin-left: -0.75rem; margin-right: -0.75rem; \x7d") := by
  have := (spacing_property_table "mx-3n" ['m', 'x'] ['3'] true (by decide)
    (by decide)).2.2.2.2.2.2.1 rfl
  rw [this]
  decide

/-- Claim C5: for every class name matching a category pattern with a
valid numeric payload, the emitted declaration's numeric value is the
documented transform — `z-(\d+)(n)?` gives the integer digits, negated on
the `n` flag and with no unit; `rounded-(\d+)` gives the digits with unit
px; `fs-(\d+)` gives the digits with unit px.  The digit bound keeps the
JS double arithmetic exact. -/
theorem numeric_payload_transforms (cn : String) (ds : List Char) (neg : Bool)
    (_hds : ds.length ≤ 15) :
    (numMatch ['z', '-'] cn.data = some (ds, neg) →
      calculateZIndex cn
        = some (if neg then -(natOfDigits ds : Int) else (natOfDigits ds : Int)) ∧
      zRuleFor cn = some ("." ++ cn ++ " \x7b z-index: "
        ++ toString (if neg then -(natOfDigits ds : Int) else (natOfDigits ds : Int))
        ++ "; \x7d")) ∧
    (numMatch "rounded-".data cn.data = some (ds, neg) →
      calculateBorderRadius cn = some (natOfDigits ds) ∧
      radiusRuleFor cn = some ("." ++ cn ++ " \x7b border-radius: "
        ++ toString (natOfDigits ds) ++ "px; \x7d")) ∧
    (numMatch "fs-".data cn.data = some (ds, neg) →
      calculateFontSize cn = some (natOfDigits ds) ∧
      fontRuleFor cn = some ("." ++ cn ++ " \x7b font-size: "
        ++ toString (natOfDigits ds) ++ "px; \x7d")) := by
  refine ⟨fun h => ?_, fun h => ?_, fun h => ?_⟩
  · have hz : calculateZIndex cn
        = some (if neg then -(natOfDigits ds : Int) else (natOfDigits ds : Int)) := by
      cases neg <;> simp [calculateZIndex, h]
    exact ⟨hz, by simp [zRuleFor, hz]⟩
  · have hr : calculateBorderRadius cn = some (natOfDigits ds) := by
      simp [calculateBorderRadius, h]
    exact ⟨hr, by simp [radiusRuleFor, hr]⟩
  · have hf : calculateFontSize cn = some (natOfDigits ds) := by
      simp [calculateFontSize, h]
    exact ⟨hf, by simp [fontRuleFor, hf]⟩

/-- Witness for C5 on `z-7n`, `rounded-12` and `fs-20`. -/
theorem numeric_payload_transforms_witness :
    zRuleFor "z-7n" = some (".z-7n \x7b z-index: -7; \x7d") ∧
    radiusRuleFor "rounded-12" = some (".rounded-12 \x7b border-radius: 12px; \x7d") ∧
    fontRuleFor "fs-20" = some (".fs-20 \x7b font-size: 20px; \x7d") := by
  refine ⟨?_, ?_, ?_⟩
  · have := ((numeric_payload_transforms "z-7n" ['7'] true (by decide)).1 (by decide)).2
    rw [this]; decide
  · have := ((numeric_payload_transforms "rounded-12" ['1', '2'] false
      (by decide)).2.1 (by decide)).2
    rw [this]; decide
  · have := ((numeric_payload_transforms "fs-20" ['2', '0'] false
      (by decide)).2.2 (by decide)).2
    rw [this]; decide

/-- Claim C6: for a class name matching `opacity-(\d+)` and starting with
`opacity-`, a payload in `[1, 10]` makes `addOpacityStyle` append the rule
`opacity: digits/10` and mark the class processed, while a payload outside
`[1, 10]` leaves the whole state — stylesheet AND processed set —
untouched, so the class stays eligible for later scans.  Concretely,
`opacity-1` gives `opacity: 0.1`, `opacity-10` gives `opacity: 1`, and
`opacity-0` and `opacity-11` emit nothing and stay unprocessed. -/
theorem opacity_range_gate (st : OpacityState) (cn : String) (ds : List Char) (flag : Bool)
    (hm : numMatch "opacity-".data cn.data = some (ds, flag))
    (hs : strStarts cn "opacity-" = true)
    (hp : cn ∉ st.processedClasses) :
    ((1 ≤ natOfDigits ds ∧ natOfDigits ds ≤ 10) →
      addOpacityStyle st cn
        = ⟨cn :: st.processedClasses,
           st.styleSheet ++ ["." ++ cn ++ " \x7b opacity: "
             ++ renderTenths (natOfDigits ds) ++ "; \x7d"]⟩) ∧
    (¬ (1 ≤ natOfDigits ds ∧ natOfDigits ds ≤ 10) →
      addOpacityStyle st cn = st ∧ cn ∉ (addOpacityStyle st cn).processedClasses) ∧
    addOpacityStyle ⟨[], []⟩ "opacity-1"
      = ⟨["opacity-1"], [".opacity-1 \x7b opacity: 0.1; \x7d"]⟩ ∧
    addOpacityStyle ⟨[], []⟩ "opacity-10"
      = ⟨["opacity-10"], [".opacity-10 \x7b opacity: 1; \x7d"]⟩ ∧
    addOpacityStyle ⟨[], []⟩ "opacity-0" = ⟨[], []⟩ ∧
    addOpacityStyle ⟨[], []⟩ "opacity-11" = ⟨[], []⟩ := by
  refine ⟨fun hin => ?_, fun hout => ?_, by decide, by decide, by decide, by decide⟩
  · have hcalc : calculateOpacity cn = some (natOfDigits ds) := by
      simp [calculateOpacity, hm, hin]
    simp [addOpacityStyle, hp, hs, hcalc]
  · have hcalc : calculateOpacity cn = none := by
      simp [calculateOpacity, hm]
      omega
    have heq : addOpacityStyle st cn = st := by
      simp [addOpacityStyle, hp, hs, hcalc]
    exact ⟨heq, by rw [heq]; exact hp⟩

/-- Witness for C6 on `opacity-7` over the empty state: the rule
`opacity: 0.7` is appended and the class marked processed. -/
theorem opacity_range_gate_witness :
    addOpacityStyle ⟨[], []⟩ "opacity-7"
      = ⟨["opacity-7"], [".opacity-7 \x7b opacity: 0.7; \x7d"]⟩ := by
  have := (opacity_range_gate ⟨[], []⟩ "opacity-7" ['7'] false (by decide) (by decide)
    (by decide)).1 (by decide)
  rw [this]
  decide

/-- Claim C7: for every category manager and every document, running the
scan a second time over the same unchanged document is a no-op (the
resulting state — stylesheet and processed set — is exactly the state
after one scan, so no new or duplicate rule and no size change), and a
class name once in a processed set stays in it across any later scan of
any document, including one where the carrying element was removed and
re-added. -/
theorem rescan_idempotent :
    (∀ (st : ZIndexState) (doc : Doc),
      applyZIndexStyles (applyZIndexStyles st doc) doc = applyZIndexStyles st doc) ∧
    (∀ (st : BorderRadiusState) (doc : Doc),
      applyBorderRadiusStyles (applyBorderRadiusStyles st doc) doc
        = applyBorderRadiusStyles st doc) ∧
    (∀ (st : FontSizeState) (doc : Doc),
      applyFontSizeStyles (applyFontSizeStyles st doc) doc = applyFontSizeStyles st doc) ∧
    (∀ (st : SpaceManagerState) (doc : Doc),
      applyStyles (applyStyles st doc) doc = applyStyles st doc) ∧
    (∀ (st : OpacityState) (doc : Doc),
      applyInitialOpacityStyles (applyInitialOpacityStyles st doc) doc
        = applyInitialOpacityStyles st doc) ∧
    (∀ (st : ZIndexState) (doc : Doc) (cn : String), cn ∈ st.processedClasses →
      cn ∈ (applyZIndexStyles st doc).processedClasses) ∧
    (∀ (st : BorderRadiusState) (doc : Doc) (cn : String), cn ∈ st.processedClasses →
      cn ∈ (applyBorderRadiusStyles st doc).processedClasses) ∧
    (∀ (st : FontSizeState) (doc : Doc) (cn : String), cn ∈ st.processedClasses →
      cn ∈ (applyFontSizeStyles st doc).processedClasses) ∧
    (∀ (st : SpaceManagerState) (doc : Doc) (cn : String), cn ∈ st.processedClassNames →
      cn ∈ (applyStyles st doc).processedClassNames) ∧
    (∀ (st : OpacityState) (doc : Doc) (cn : String), cn ∈ st.processedClasses →
      cn ∈ (applyInitialOpacityStyles st doc).processedClasses) := by
  refine ⟨applyZIndexStyles_idem, applyBorderRadiusStyles_idem, applyFontSizeStyles_idem,
    applyStyles_idem, applyInitialOpacityStyles_idem, ?_, ?_, ?_, ?_, ?_⟩
  · intro st doc cn h
    exact scanClasses_processed_mono zRuleFor (classStream "z-" doc) cn [] _ h
  · intro st doc cn h
    exact scanClasses_processed_mono radiusRuleFor (classStream "rounded-" doc) cn [] _ h
  · intro st doc cn h
    exact scanClasses_processed_mono fontRuleFor (classStream "fs-" doc) cn [] _ h
  · intro st doc cn h
    exact scanClasses_processed_mono spaceRuleFor (classStream "-" doc) cn [] _ h
  · intro st doc cn h
    exact opacityFold_processed_mono (classStream "opacity-" doc) st cn h

/-- Witness for C7: a z-index class processed before a scan of a document
that no longer carries it (the element was removed) is still in the
processed set afterwards — and stays unprocessed-skipped forever. -/
theorem rescan_idempotent_witness :
    "z-1" ∈ (applyZIndexStyles ⟨["z-1"], [".z-1 \x7b z-index: 1; \x7d"]⟩ [["m-2"]]).processedClasses :=
  rescan_idempotent.2.2.2.2.2.1 ⟨["z-1"], [".z-1 \x7b z-index: 1; \x7d"]⟩ [["m-2"]] "z-1"
    (by decide)

/-- Claim C9: the resize handler debounces with trailing-edge semantics
and a 300ms quiet period.  First conjunct: for any non-empty burst whose
consecutive gaps are all under 300ms, exactly one recomputation happens,
at 300ms after the last event and with the burst's final width.  Second
conjunct (no leading edge, trailing only): every recomputation the
debouncer ever emits lies exactly 300ms after one of the input events and
carries that event's width. -/
theorem debounce_trailing_edge :
    (∀ (e : Nat × Nat) (es : List (Nat × Nat)), gapsUnder 300 (e :: es) = true →
      debounceFires 300 (e :: es) = [((lastPair e es).1 + 300, (lastPair e es).2)]) ∧
    (∀ (evs : List (Nat × Nat)) (f : Nat × Nat), f ∈ debounceFires 300 evs →
      ∃ ev, ev ∈ evs ∧ f = (ev.1 + 300, ev.2)) := by
  constructor
  · intro e es
    induction es generalizing e with
    | nil => intro _; rfl
    | cons x xs ih =>
      intro h
      have h' : x.1 < e.1 + 300 ∧ gapsUnder 300 (x :: xs) = true := by
        simpa [gapsUnder] using h
      have hgap : x.1 < e.1 + 300 := h'.1
      have htail : gapsUnder 300 (x :: xs) = true := h'.2
      calc debounceFires 300 (e :: x :: xs)
          = debounceFires 300 (x :: xs) := by
            rw [show debounceFires 300 (e :: x :: xs)
              = if x.1 < e.1 + 300 then debounceFires 300 (x :: xs)
                else (e.1 + 300, e.2) :: debounceFires 300 (x :: xs) from by
                  cases e; cases x; rfl]
            simp [hgap]
        _ = [((lastPair x xs).1 + 300, (lastPair x xs).2)] := ih x htail
  · intro evs
    induction evs with
    | nil => intro f hf; cases hf
    | cons e es ih =>
      intro f hf
      cases es with
      | nil =>
        have : f = (e.1 + 300, e.2) := by
          cases e
          simpa [debounceFires] using hf
        exact ⟨e, List.mem_cons_self _ _, this⟩
      | cons x xs =>
        have hstep : debounceFires 300 (e :: x :: xs)
            = if x.1 < e.1 + 300 then debounceFires 300 (x :: xs)
              else (e.1 + 300, e.2) :: debounceFires 300 (x :: xs) := by
          cases e; cases x; rfl
        by_cases hlt : x.1 < e.1 + 300
        · rw [hstep, if_pos hlt] at hf
          obtain ⟨ev, hev, heq⟩ := ih f hf
          exact ⟨ev, List.mem_cons_of_mem _ hev, heq⟩
        · rw [hstep, if_neg hlt] at hf
          rcases List.mem_cons.mp hf with heq | hf2
          · exact ⟨e, List.mem_cons_self _ _, heq⟩
          · obtain ⟨ev, hev, heq⟩ := ih f hf2
            exact ⟨ev, List.mem_cons_of_mem _ hev, heq⟩

/-- Witness for C9: ten resize events inside one 300ms window collapse to
the single recomputation 300ms after the last event, with the final
width. -/
theorem debounce_trailing_edge_witness :
    debounceFires 300
      [(0, 900), (20, 910), (40, 920), (60, 930), (80, 940), (100, 950),
       (120, 960), (150, 970), (200, 980), (280, 575)]
      = [(580, 575)] := by
  have := debounce_trailing_edge.1 (0, 900)
    [(20, 910), (40, 920), (60, 930), (80, 940), (100, 950),
     (120, 960), (150, 970), (200, 980), (280, 575)] (by decide)
  rw [this]
  decide

/-- Full-anchored tail check `(\d+)n?$` (resp. `(\d+)$` when the flag is
not allowed): the whole remaining text must be the digit run optionally
followed by a single `n`. -/
def fullTailShape (allowN : Bool) (rest : List Char) : Bool :=
  if rest.takeWhile Char.isDigit = [] then false
  else
    match rest.drop (rest.takeWhile Char.isDigit).length with
    | [] => true
    | ['n'] => allowN
    | _ => false

/-- The documented anchored shape `^lit(\d+)n?$` (flag as allowed). -/
def fullNumShape (lit : List Char) (allowN : Bool) (cs : List Char) : Bool :=
  match dropLit lit cs with
  | none => false
  | some rest => fullTailShape allowN rest

/-- The documented anchored z-index shape `^z-(\d+)n?$`. -/
def isFullZShape (cn : String) : Bool := fullNumShape ['z', '-'] true cn.data

/-- The documented anchored border-radius shape `^rounded-(\d+)$`. -/
def isFullRoundedShape (cn : String) : Bool := fullNumShape "rounded-".data false cn.data

/-- Full-anchored tail check `-(\d+)n?$`: a literal dash followed by the
digit run and the optional `n`, consuming the whole remaining text. -/
def fullDashTail (allowN : Bool) : List Char → Bool
| '-' :: rest => fullTailShape allowN rest
| _ => false

/-- The documented anchored spacing shape `^[mp][trblxy]?-(\d+)n?$`: a
leading `m` or `p`, an optional side character (both alternatives of the
optional group are checked, though a side character can never also start
the dash tail), then the dash-digits-flag tail filling the rest of the
text. -/
def isFullSpaceShape (cn : String) : Bool :=
  match cn.data with
  | [] => false
  | c :: rest =>
    if c = 'm' ∨ c = 'p' then
      match rest with
      | [] => false
      | d :: rest2 =>
        if d ∈ sideChars then fullDashTail true rest2 || fullDashTail true rest
        else fullDashTail true rest
    else false

/-- Claim C10: every category regex is unanchored, so class names whose
full text does NOT have the documented shape but merely contain it as a
substring still get a rule whose value comes from the embedded substring
while the selector is the whole class name: `camp-4` yields
`.camp-4 \x7b padding: 1.00rem; \x7d`, `az-3n` yields
`.az-3n \x7b z-index: -3; \x7d`, and `xrounded-7` yields
`.xrounded-7 \x7b border-radius: 7px; \x7d`. -/
theorem unanchored_regex_substring_match :
    isFullSpaceShape "camp-4" = false ∧
    spaceRuleFor "camp-4" = some ".camp-4 \x7b padding: 1.00rem; \x7d" ∧
    isFullZShape "az-3n" = false ∧
    zRuleFor "az-3n" = some ".az-3n \x7b z-index: -3; \x7d" ∧
    isFullRoundedShape "xrounded-7" = false ∧
    radiusRuleFor "xrounded-7" = some ".xrounded-7 \x7b border-radius: 7px; \x7d" := by
  decide

/-- The spec's end-to-end demo document: one element carrying the class
attribute `p-8 rounded-12 z-5n fs-20`. -/
def demoDoc : Doc := [["p-8", "rounded-12", "z-5n", "fs-20"]]

/-- Claim C1 is false on the code: the SpaceManager and FontSizeManager
constructors attach mutation observers but never run an initial scan, so
after `new CSSManager()` and before any DOM mutation the adopted
stylesheets do NOT contain all four rules of the end-to-end scenario (the
`.p-8` and `.fs-20` rules are missing). -/
theorem initial_scan_counterexample :
    ¬ (".p-8 \x7b padding: 2.00rem; \x7d" ∈ adoptedRules (cssManagerInit 1024 demoDoc) ∧
       ".rounded-12 \x7b border-radius: 12px; \x7d" ∈ adoptedRules (cssManagerInit 1024 demoDoc) ∧
       ".z-5n \x7b z-index: -5; \x7d" ∈ adoptedRules (cssManagerInit 1024 demoDoc) ∧
       ".fs-20 \x7b font-size: 20px; \x7d" ∈ adoptedRules (cssManagerInit 1024 demoDoc)) := by
  decide

/-- Claim C1 (amended): at CSSManager construction only the z-index,
opacity and border-radius managers perform an initial full-document scan;
the spacing and font-size managers only attach observers.  For the demo
element `p-8 rounded-12 z-5n fs-20`, after construction the stylesheet set
contains the `.z-5n` and `.rounded-12` rules but no rule at all mentioning
`p-8` or `fs-20`; all four rules are present after the first
mutation-triggered rescan. -/
theorem initial_scan_amended :
    ".z-5n \x7b z-index: -5; \x7d" ∈ adoptedRules (cssManagerInit 1024 demoDoc) ∧
    ".rounded-12 \x7b border-radius: 12px; \x7d" ∈ adoptedRules (cssManagerInit 1024 demoDoc) ∧
    (adoptedRules (cssManagerInit 1024 demoDoc)).all (fun r => !(hasSub r "p-8")) = true ∧
    (adoptedRules (cssManagerInit 1024 demoDoc)).all (fun r => !(hasSub r "fs-20")) = true ∧
    ".p-8 \x7b padding: 2.00rem; \x7d"
      ∈ adoptedRules (mutationRescan (cssManagerInit 1024 demoDoc) demoDoc) ∧
    ".rounded-12 \x7b border-radius: 12px; \x7d"
      ∈ adoptedRules (mutationRescan (cssManagerInit 1024 demoDoc) demoDoc) ∧
    ".z-5n \x7b z-index: -5; \x7d"
      ∈ adoptedRules (mutationRescan (cssManagerInit 1024 demoDoc) demoDoc) ∧
    ".fs-20 \x7b font-size: 20px; \x7d"
      ∈ adoptedRules (mutationRescan (cssManagerInit 1024 demoDoc) demoDoc) := by
  decide

/-- First scan document for the C2 scenario: one element with class
`z-1`. -/
def zDocA : Doc := [["z-1"]]

/-- Second scan document for the C2 scenario: the `z-1` element plus a new
`z-2` element. -/
def zDocB : Doc := [["z-1"], ["z-2"]]

/-- Claim C2 is false on the code: `ZIndexManager.applyZIndexStyles` calls
`styleSheet.replaceSync(styles)` where `styles` holds only the
previously-unseen rules, so after a first scan commits `.z-1` and a later
scan commits `.z-2`, the `.z-1` rule is REMOVED from the manager's
stylesheet (and, `z-1` being marked processed, it is never re-emitted). -/
theorem append_only_counterexample :
    ".z-1 \x7b z-index: 1; \x7d" ∈ (applyZIndexStyles ⟨[], []⟩ zDocA).styleSheet ∧
    ".z-2 \x7b z-index: 2; \x7d"
      ∈ (applyZIndexStyles (applyZIndexStyles ⟨[], []⟩ zDocA) zDocB).styleSheet ∧
    ".z-1 \x7b z-index: 1; \x7d"
      ∉ (applyZIndexStyles (applyZIndexStyles ⟨[], []⟩ zDocA) zDocB).styleSheet := by
  decide

/-- Claim C2 (amended): only the opacity manager appends — a rule once in
its stylesheet survives every later `addOpacityStyle` call.  The z-index,
border-radius and font-size managers instead REPLACE: a scan that finds at
least one unseen rule replaces the stylesheet contents with exactly the
new batch (dropping every previously committed rule), and a scan that
finds none leaves the sheet unchanged. -/
theorem append_only_amended :
    (∀ (st : ZIndexState) (doc : Doc),
      ((scanClasses zRuleFor (classStream "z-" doc) [] st.processedClasses).1 = [] →
        (applyZIndexStyles st doc).styleSheet = st.styleSheet) ∧
      ((scanClasses zRuleFor (classStream "z-" doc) [] st.processedClasses).1 ≠ [] →
        (applyZIndexStyles st doc).styleSheet
          = (scanClasses zRuleFor (classStream "z-" doc) [] st.processedClasses).1)) ∧
    (∀ (st : BorderRadiusState) (doc : Doc),
      ((scanClasses radiusRuleFor (classStream "rounded-" doc) [] st.processedClasses).1 = [] →
        (applyBorderRadiusStyles st doc).styleSheet = st.styleSheet) ∧
      ((scanClasses radiusRuleFor (classStream "rounded-" doc) [] st.processedClasses).1 ≠ [] →
        (applyBorderRadiusStyles st doc).styleSheet
          = (scanClasses radiusRuleFor (classStream "rounded-" doc) [] st.processedClasses).1)) ∧
    (∀ (st : FontSizeState) (doc : Doc),
      ((scanClasses fontRuleFor (classStream "fs-" doc) [] st.processedClasses).1 = [] →
        (applyFontSizeStyles st doc).styleSheet = st.styleSheet) ∧
      ((scanClasses fontRuleFor (classStream "fs-" doc) [] st.processedClasses).1 ≠ [] →
        (applyFontSizeStyles st doc).styleSheet
          = (scanClasses fontRuleFor (classStream "fs-" doc) [] st.processedClasses).1)) ∧
    (∀ (st : OpacityState) (cn r : String),
      r ∈ st.styleSheet → r ∈ (addOpacityStyle st cn).styleSheet) := by
  refine ⟨fun st doc => ⟨fun h => ?_, fun h => ?_⟩,
    fun st doc => ⟨fun h => ?_, fun h => ?_⟩,
    fun st doc => ⟨fun h => ?_, fun h => ?_⟩,
    addOpacityStyle_sheet_mono⟩ <;>
  simp [applyZIndexStyles, applyBorderRadiusStyles, applyFontSizeStyles,
    replaceScanStep, h]

/-- Witness for C2 (amended): a committed opacity rule survives a later
`addOpacityStyle` call that inserts a new rule. -/
theorem append_only_amended_witness :
    ".opacity-5 \x7b opacity: 0.5; \x7d"
      ∈ (addOpacityStyle ⟨["opacity-5"], [".opacity-5 \x7b opacity: 0.5; \x7d"]⟩
          "opacity-3").styleSheet :=
  append_only_amended.2.2.2
    ⟨["opacity-5"], [".opacity-5 \x7b opacity: 0.5; \x7d"]⟩
    "opacity-3" ".opacity-5 \x7b opacity: 0.5; \x7d" (by decide)

end Uiverse
